import Mathlib

/-!
# tg-timer: shallow embedding of the timer scheduler, the duration parser and the retrying sender

Sources embedded here:

* `src/internal/bot/types.go`          : `Timer`
* `src/internal/bot/timer_manager.go`  : `TimerManager`, `SetTimer`, `CancelTimer`,
  `HasActiveTimer`, `StopAll`, `runTimer`, `GetActiveTimerInfo`
* `src/internal/bot/command_handler.go`: `parseTimerDuration`
* `src/pkg/telegram/client.go`         : `SendMessage`, `sendMessageWithRetry`

Conventions.  `time.Duration` and clock readings are integers counting nanoseconds; `int64`
arithmetic is made explicit with `wrap64` where a result can leave the 64-bit range.  A Go
`map[int64]*Timer` is an association list whose operations keep at most one entry per key.
A `context.CancelFunc` is identified by the number of the context it cancels, and that number
also serves as the pointer identity of the `*Timer` that owns it.  Every section of code that
runs under `tm.mu` is one atomic step of the model; goroutines interleave between such steps.
-/

namespace TgTimer

/-! ## Data model -/

/-- Timer of `types.go`.  `CancelFunc` is the identity of the context that the handle cancels. -/
structure Timer where
  ChatID : Int
  Duration : Int
  StartTime : Int
  CancelFunc : Nat
deriving DecidableEq, Repr

/-- Position of a `runTimer` goroutine inside its body. -/
inductive Phase where
  /-- Blocked in (or not yet arrived at) the `select`. -/
  | waiting
  /-- The `time.After` case was chosen; `tm.mu.Lock()` not yet acquired. -/
  | elapsed
  /-- The critical section `delete(tm.timers, chatID)` has run; `SendMessage` not yet called. -/
  | removed
  /-- The goroutine returned. -/
  | finished
deriving DecidableEq, Repr

/-- One goroutine started by `go tm.runTimer(timerCtx, chatID, duration, durationText)`,
with its arguments, the clock reading at which it was started, and its position. -/
structure Task where
  ctx : Nat
  chatID : Int
  duration : Int
  durationText : String
  spawned : Int
  phase : Phase
deriving DecidableEq, Repr

/-- One call `tm.telegram.SendMessage(ctx, chatID, "Время вышло!")` made by a `runTimer`
goroutine: the destination chat, the context it was called with, and whether a request was
issued to the remote API.  `sendMessageWithRetry` hands the context to `http.Client.Do` on
the first attempt and tests `ctx.Done()` before every later one; `net/http` returns the
error of a context that is already done without issuing the request.  So a call made with a
cancelled context issues nothing, and a call made with a live context issues a request. -/
structure Notification where
  chatID : Int
  ctx : Nat
  issued : Bool
deriving DecidableEq, Repr

/-- The `TimerManager` of `timer_manager.go` (field `timers`) together with the part of the
environment its methods act on: the contexts whose `Done` channel is closed, the spawned
`runTimer` goroutines, the calls made to the `telegram.Client`, the clock, and the supply of
fresh contexts for `context.WithCancel`. -/
structure TimerManager where
  timers : List (Int × Timer)
  cancelled : List Nat
  tasks : List Task
  sent : List Notification
  now : Int
  nextCtx : Nat
deriving DecidableEq, Repr

/-! ## Go map operations on the registry -/

/-- Go `v, ok := m[k]`. -/
def mapGet : List (Int × Timer) → Int → Option Timer
  | [], _ => none
  | (k, v) :: rest, c => if k = c then some v else mapGet rest c

/-- Go `delete(m, k)`. -/
def mapDelete (m : List (Int × Timer)) (c : Int) : List (Int × Timer) :=
  m.filter (fun e => decide (e.1 ≠ c))

/-- Go `m[k] = v`: the entry for `k` is replaced. -/
def mapSet (m : List (Int × Timer)) (c : Int) (v : Timer) : List (Int × Timer) :=
  (c, v) :: mapDelete m c

/-- Number of entries the registry holds for a key. -/
def mapCount (m : List (Int × Timer)) (c : Int) : Nat :=
  (m.filter (fun e => decide (e.1 = c))).length

/-! ## TimerManager methods -/

/-- Go `NewTimerManager`: an empty registry (clock at 0, no goroutine yet). -/
def NewTimerManager : TimerManager :=
  ⟨[], [], [], [], 0, 0⟩

/-- Go `CancelTimer` (lines 56-68), one critical section: when a timer is registered for the
chat its `CancelFunc` is invoked and the entry deleted, result `true`; otherwise `false`. -/
def CancelTimer (tm : TimerManager) (chatID : Int) : TimerManager × Bool :=
  match mapGet tm.timers chatID with
  | some timer =>
      (⟨mapDelete tm.timers chatID, tm.cancelled ++ [timer.CancelFunc], tm.tasks, tm.sent,
        tm.now, tm.nextCtx⟩, true)
  | none => (tm, false)

/-- Second half of Go `SetTimer` (lines 32-49): `context.WithCancel`, the new `Timer` with
`StartTime = time.Now()`, the critical section `tm.timers[chatID] = timer`, and
`go tm.runTimer(...)`. -/
def storeTimer (tm : TimerManager) (chatID : Int) (duration : Int) (durationText : String) :
    TimerManager :=
  ⟨mapSet tm.timers chatID ⟨chatID, duration, tm.now, tm.nextCtx⟩,
   tm.cancelled,
   tm.tasks ++ [⟨tm.nextCtx, chatID, duration, durationText, tm.now, Phase.waiting⟩],
   tm.sent, tm.now, tm.nextCtx + 1⟩

/-- Go `SetTimer` (lines 28-53) run without interruption: `tm.CancelTimer(chatID)` followed by
the store and the spawn.  The Go function always returns a nil error.  The parent `ctx` is
the context of the bot loop, cancelled only at shutdown; its cancellation is not modelled. -/
def SetTimer (tm : TimerManager) (chatID : Int) (duration : Int) (durationText : String) :
    TimerManager :=
  storeTimer (CancelTimer tm chatID).1 chatID duration durationText

/-- Go `HasActiveTimer` (lines 71-77). -/
def HasActiveTimer (tm : TimerManager) (chatID : Int) : Bool :=
  (mapGet tm.timers chatID).isSome

/-- Go `StopAll` (lines 80-91), one critical section: every registered timer has its
`CancelFunc` invoked, then the registry is replaced by an empty map. -/
def StopAll (tm : TimerManager) : TimerManager :=
  ⟨[], tm.cancelled ++ tm.timers.map (fun e => e.2.CancelFunc), tm.tasks, tm.sent,
   tm.now, tm.nextCtx⟩

/-! ## The `runTimer` goroutine, one step at a time -/

/-- Apply `f` to the goroutine of context `id` when `ready` holds for it. -/
def updateTask (tasks : List Task) (id : Nat) (ready : Task → Bool) (f : Task → Task) :
    List Task :=
  tasks.map (fun t => if t.ctx = id ∧ ready t = true then f t else t)

/-- Find the goroutine of context `id` when `ready` holds for it. -/
def findTask (tasks : List Task) (id : Nat) (ready : Task → Bool) : Option Task :=
  tasks.find? (fun t => decide (t.ctx = id) && ready t)

/-- Go `runTimer`, `case <-ctx.Done(): return` (lines 96-98): enabled for a goroutine at the
`select` whose context is cancelled. -/
def runTimerDone (tm : TimerManager) (id : Nat) : TimerManager :=
  let ready : Task → Bool := fun t => decide (t.phase = Phase.waiting) && decide (id ∈ tm.cancelled)
  ⟨tm.timers, tm.cancelled, updateTask tm.tasks id ready (fun t => { t with phase := Phase.finished }),
   tm.sent, tm.now, tm.nextCtx⟩

/-- Go `runTimer`, `case <-time.After(duration):` (line 99): enabled for a goroutine at the
`select` once `duration` has passed since it was started.  The source has no test of
`ctx` on this branch, and Go chooses among the ready cases of a `select` at random, so the
step does not depend on whether the context is cancelled. -/
def runTimerAfter (tm : TimerManager) (id : Nat) : TimerManager :=
  let ready : Task → Bool :=
    fun t => decide (t.phase = Phase.waiting) && decide (t.spawned + t.duration ≤ tm.now)
  ⟨tm.timers, tm.cancelled, updateTask tm.tasks id ready (fun t => { t with phase := Phase.elapsed }),
   tm.sent, tm.now, tm.nextCtx⟩

/-- Go `runTimer`, lines 101-103: `tm.mu.Lock(); delete(tm.timers, chatID); tm.mu.Unlock()`,
executed by a goroutine that took the `time.After` case. -/
def runTimerRemove (tm : TimerManager) (id : Nat) : TimerManager :=
  let ready : Task → Bool := fun t => decide (t.phase = Phase.elapsed)
  match findTask tm.tasks id ready with
  | some t =>
      ⟨mapDelete tm.timers t.chatID, tm.cancelled,
       updateTask tm.tasks id ready (fun t => { t with phase := Phase.removed }),
       tm.sent, tm.now, tm.nextCtx⟩
  | none => tm

/-- Go `runTimer`, line 106: `tm.telegram.SendMessage(ctx, chatID, "Время вышло!")`, executed
after the deletion, with no test of `ctx` in between; the goroutine then logs and returns.
The call issues a request when the context is not cancelled at that moment. -/
def runTimerSend (tm : TimerManager) (id : Nat) : TimerManager :=
  let ready : Task → Bool := fun t => decide (t.phase = Phase.removed)
  match findTask tm.tasks id ready with
  | some t =>
      ⟨tm.timers, tm.cancelled,
       updateTask tm.tasks id ready (fun t => { t with phase := Phase.finished }),
       tm.sent ++ [⟨t.chatID, id, decide (id ∉ tm.cancelled)⟩], tm.now, tm.nextCtx⟩
  | none => tm

/-- The clock moves forward by `dt` nanoseconds. -/
def advance (tm : TimerManager) (dt : Nat) : TimerManager :=
  ⟨tm.timers, tm.cancelled, tm.tasks, tm.sent, tm.now + dt, tm.nextCtx⟩

/-- Atomic steps of the system: calls of the public methods, the two critical sections of a
`SetTimer` call that runs concurrently with other calls (`setCancel`, `setStore`), the steps of
the `runTimer` goroutines, and the passage of time. -/
inductive Event where
  | setTimer (chatID : Int) (duration : Int) (durationText : String)
  | cancelTimer (chatID : Int)
  | stopAll
  | setCancel (chatID : Int)
  | setStore (chatID : Int) (duration : Int) (durationText : String)
  | taskDone (ctx : Nat)
  | taskAfter (ctx : Nat)
  | taskRemove (ctx : Nat)
  | taskSend (ctx : Nat)
  | tick (dt : Nat)
deriving DecidableEq, Repr

/-- Effect of one atomic step.  A goroutine step that is not enabled leaves the state as it is. -/
def step (tm : TimerManager) : Event → TimerManager
  | Event.setTimer c d txt => SetTimer tm c d txt
  | Event.cancelTimer c => (CancelTimer tm c).1
  | Event.stopAll => StopAll tm
  | Event.setCancel c => (CancelTimer tm c).1
  | Event.setStore c d txt => storeTimer tm c d txt
  | Event.taskDone id => runTimerDone tm id
  | Event.taskAfter id => runTimerAfter tm id
  | Event.taskRemove id => runTimerRemove tm id
  | Event.taskSend id => runTimerSend tm id
  | Event.tick dt => advance tm dt

/-- Run a schedule of atomic steps from a state. -/
def run (tm : TimerManager) (evs : List Event) : TimerManager :=
  evs.foldl step tm

/-- Goroutines that can still send: started, not returned, and their context not cancelled. -/
def liveTasks (tm : TimerManager) (chatID : Int) : List Task :=
  tm.tasks.filter (fun t =>
    decide (t.chatID = chatID) && decide (t.phase ≠ Phase.finished) && decide (t.ctx ∉ tm.cancelled))

/-- Steps allowed between the `SetTimer` calls for chat `c` in the C2 invariant: `SetTimer` for
any chat, `CancelTimer` for another chat, a cancelled goroutine returning, and the passage of
time.  Excluded are a cancel of `c`, `StopAll`, and every expiry step. -/
def sparesChat (c : Int) : Event → Bool
  | Event.setTimer _ _ _ => true
  | Event.cancelTimer c' => decide (c' ≠ c)
  | Event.taskDone _ => true
  | Event.tick _ => true
  | _ => false

/-- The C2 invariant for chat `c`: `HasActiveTimer` holds and the registry has one entry. -/
def oneTimer (tm : TimerManager) (c : Int) : Prop :=
  HasActiveTimer tm c = true ∧ mapCount tm.timers c = 1

/-- Schedule in which a timer of one second for chat 7 expires, its goroutine (context 0)
takes the `time.After` case, and before that goroutine reaches `tm.mu.Lock()` a second
`SetTimer` for chat 7 replaces the timer by one of a minute (context 1). -/
def supersededSchedule : List Event :=
  [Event.setTimer 7 1000000000 "1 секунду", Event.tick 1000000000, Event.taskAfter 0,
   Event.setTimer 7 60000000000 "1 минуту"]

/-- Two calls in program order, `SetTimer(7, 0)` (`/timer 0s`) then `SetTimer(7, 1m)`. -/
def setTwice : List Event :=
  [Event.setTimer 7 0 "0 секунды", Event.setTimer 7 60000000000 "1 минуту"]

/-- The goroutine of the first Timer (context 0) running its `time.After` branch to the end. -/
def firstTaskFires : List Event :=
  [Event.taskAfter 0, Event.taskRemove 0, Event.taskSend 0]

/-- Two concurrent `SetTimer` calls for chat 7 on an empty registry, each made of its two
critical sections: both run `CancelTimer` (finding nothing) before either stores. -/
def concurrentSets : List Event :=
  [Event.setCancel 7, Event.setCancel 7,
   Event.setStore 7 1000000000 "1 секунду", Event.setStore 7 2000000000 "2 секунды"]

/-- Both goroutines left by `concurrentSets` running to the end after two seconds. -/
def bothTasksFire : List Event :=
  [Event.tick 2000000000, Event.taskAfter 0, Event.taskRemove 0, Event.taskSend 0,
   Event.taskAfter 1, Event.taskRemove 1, Event.taskSend 1]

/-! ## 64-bit integers and time -/

/-- Largest `int64`, also the largest `time.Duration` and (on a 64-bit platform) `int`. -/
def maxInt64 : Int := 9223372036854775807

/-- Smallest `int64`. -/
def minInt64 : Int := -9223372036854775808

/-- Result of an `int64` operation whose exact value is `x`: two's complement wrap-around. -/
def wrap64 (x : Int) : Int :=
  (x + 9223372036854775808) % 18446744073709551616 - 9223372036854775808

/-- Go `time.Second` in nanoseconds. -/
def Second : Int := 1000000000

/-- Go `time.Minute` in nanoseconds. -/
def Minute : Int := 60000000000

/-- Go `time.Since(start)` read at clock value `now`: `now.Sub(start)`, which the `time`
package saturates at the largest and smallest `Duration`. -/
def timeSince (now start : Int) : Int :=
  if now - start > maxInt64 then maxInt64
  else if now - start < minInt64 then minInt64
  else now - start

/-- Go `GetActiveTimerInfo` (lines 116-130), read at the clock value of the state. -/
def GetActiveTimerInfo (tm : TimerManager) (chatID : Int) : Int × Bool :=
  match mapGet tm.timers chatID with
  | some timer =>
      let elapsed := timeSince tm.now timer.StartTime
      let remaining := wrap64 (timer.Duration - elapsed)
      (if remaining < 0 then 0 else remaining, true)
  | none => (0, false)

/-! ## Duration parser (`command_handler.go`) -/

/-- Go `unicode.IsSpace`, which `strings.TrimSpace` uses: the Unicode White_Space runes. -/
def isSpace (c : Char) : Bool :=
  (9 ≤ c.toNat && c.toNat ≤ 13) || c.toNat = 32 || c.toNat = 133 || c.toNat = 160
    || c.toNat = 5760 || (8192 ≤ c.toNat && c.toNat ≤ 8202) || c.toNat = 8232
    || c.toNat = 8233 || c.toNat = 8239 || c.toNat = 8287 || c.toNat = 12288

/-- Go `strings.TrimSpace`: leading and trailing white space removed. -/
def TrimSpace (s : List Char) : List Char :=
  ((s.dropWhile isSpace).reverse.dropWhile isSpace).reverse

/-- Go `unicode.ToLower` on one rune.  `A`-`Z` go to `a`-`z`; the two runes outside ASCII whose
lower case is an ASCII letter (U+0130 to `i`, U+212A to `k`) are mapped as Go maps them.  Every
other rune outside ASCII is sent by Go to a rune outside ASCII and is left as it is here: the
pattern of `parseTimerDuration` accepts no rune outside ASCII either way. -/
def toLowerRune (c : Char) : Char :=
  if c.toNat = 304 then 'i'
  else if c.toNat = 8490 then 'k'
  else c.toLower

/-- Go `strings.ToLower`. -/
def ToLower (s : List Char) : List Char :=
  s.map toLowerRune

/-- Regexp class `\d`: an ASCII decimal digit. -/
def isDigit (c : Char) : Bool :=
  48 ≤ c.toNat && c.toNat ≤ 57

/-- Go `regexp.MustCompile("^(\d+)([sm])$").FindStringSubmatch` : the two captured groups when
the whole text is a non-empty run of digits followed by one `s` or `m`, `none` (a nil slice)
otherwise.  The digit run is taken greedily; no digit is `s` or `m`, so no backtracking into
the run can produce a match. -/
def FindStringSubmatch (s : List Char) : Option (List Char × Char) :=
  match s.takeWhile isDigit, s.dropWhile isDigit with
  | [], _ => none
  | d :: ds, [u] => if u = 's' ∨ u = 'm' then some (d :: ds, u) else none
  | _, _ => none

/-- Value of a string of decimal digits. -/
def decimalValue (ds : List Char) : Nat :=
  ds.foldl (fun acc c => 10 * acc + (c.toNat - 48)) 0

/-- Go `strconv.Quote` on a string of printable ASCII without quote or backslash: the string
between double quotes.  `Atoi` is called here only on the digit run captured by the pattern. -/
def Quote (s : List Char) : String :=
  "\"" ++ String.mk s ++ "\""

/-- Text of the `*strconv.NumError` that `strconv.Atoi` returns for the string `s`:
`"strconv." + Func + ": parsing " + Quote(Num) + ": " + Err.Error()`. -/
def numError (s : List Char) (cause : String) : String :=
  "strconv.Atoi: parsing " ++ Quote s ++ ": " ++ cause

/-- Go `strconv.Atoi` with a 64-bit `int`: an optional sign, then one or more decimal digits;
the error is the text of the `NumError`, with `ErrSyntax` or `ErrRange` as its cause. -/
def Atoi (s : List Char) : Except String Int :=
  let neg := decide (s.head? = some '-')
  let body := if s.head? = some '-' ∨ s.head? = some '+' then s.tail else s
  if body = [] ∨ ¬ (body.all isDigit = true) then Except.error (numError s "invalid syntax")
  else if neg then
    (if (decimalValue body : Int) ≤ 9223372036854775808 then
       Except.ok (-(decimalValue body : Int))
     else Except.error (numError s "value out of range"))
  else
    (if (decimalValue body : Int) ≤ maxInt64 then Except.ok (decimalValue body : Int)
     else Except.error (numError s "value out of range"))

/-- The three results of Go `parseTimerDuration`: duration in nanoseconds, label, error. -/
structure ParseResult where
  duration : Int
  text : String
  err : Option String
deriving DecidableEq, Repr

/-- Go `parseTimerDuration` (lines 131-180). -/
def parseTimerDuration (input : String) : ParseResult :=
  match FindStringSubmatch (ToLower (TrimSpace input.data)) with
  | none => ⟨0, "", some "invalid format"⟩
  | some (digits, unit) =>
    match Atoi digits with
    | Except.error err => ⟨0, "", some ("invalid number: " ++ err)⟩
    | Except.ok number =>
      if unit = 's' then
        if number > 86400 then ⟨0, "", some "too many seconds"⟩
        else
          ⟨wrap64 (number * Second),
           if number = 1 then "1 секунду"
           else if number < 5 then toString number ++ " секунды"
           else toString number ++ " секунд",
           none⟩
      else if unit = 'm' then
        if number > 1440 then ⟨0, "", some "too many minutes"⟩
        else
          ⟨wrap64 (number * Minute),
           if number = 1 then "1 минуту"
           else if number < 5 then toString number ++ " минуты"
           else toString number ++ " минут",
           none⟩
      else ⟨0, "", some ("unsupported unit: " ++ String.mk [unit])⟩

/-! ## Retrying sender (`client.go`) -/

/-- Errors `sendMessageWithRetry` returns: `ctx.Err()`, or the error that wraps the last
failure after `maxRetries` attempts (`lastErr` is nil when no attempt was made). -/
inductive SendError where
  | ctxErr
  | exhausted (maxRetries : Nat) (lastErr : Option String)
deriving DecidableEq, Repr

/-- What a call of `sendMessageWithRetry` did: the error returned (`none` is nil), the number
of calls of `sendSingleMessage`, and the backoff waits it sat through, in nanoseconds. -/
structure SendResult where
  err : Option SendError
  attempts : Nat
  waits : List Int
deriving DecidableEq, Repr

/-- Go `time.Duration(math.Pow(2, float64(attempt))) * time.Second` (line 100).  `math.Pow`
computes a power of two without rounding; `SendMessage` reaches this line with `attempt` 1
and 2 only. -/
def backoff (attempt : Nat) : Int :=
  wrap64 (wrap64 ((2 : Int) ^ attempt) * Second)

/-- The loop of Go `sendMessageWithRetry` (lines 97-115) from iteration `attempt`, with
`remaining = maxRetries - attempt` iterations left.  `outcome k` is what the `k`-th call of
`sendSingleMessage` returns (`none` is nil); `ctxDone k` tells whether `ctx` is cancelled
before the backoff wait that precedes attempt `k` is over. -/
def retryLoop (outcome : Nat → Option String) (ctxDone : Nat → Bool) (maxRetries : Nat) :
    Nat → Nat → Option String → List Int → SendResult
  | 0, attempt, lastErr, waits => ⟨some (SendError.exhausted maxRetries lastErr), attempt, waits⟩
  | remaining + 1, attempt, _, waits =>
    if 0 < attempt ∧ ctxDone attempt = true then ⟨some SendError.ctxErr, attempt, waits⟩
    else
      match outcome attempt with
      | none => ⟨none, attempt + 1, if 0 < attempt then waits ++ [backoff attempt] else waits⟩
      | some e =>
        retryLoop outcome ctxDone maxRetries remaining (attempt + 1) (some e)
          (if 0 < attempt then waits ++ [backoff attempt] else waits)

/-- Go `sendMessageWithRetry` (lines 89-118). -/
def sendMessageWithRetry (outcome : Nat → Option String) (ctxDone : Nat → Bool)
    (maxRetries : Nat) : SendResult :=
  retryLoop outcome ctxDone maxRetries maxRetries 0 none []

/-- Go `HTTPClient.SendMessage` (lines 84-86): three attempts. -/
def SendMessage (outcome : Nat → Option String) (ctxDone : Nat → Bool) : SendResult :=
  sendMessageWithRetry outcome ctxDone 3

/-! ## Command dispatcher (`command_handler.go`) -/

/-- Go `time.Hour` in nanoseconds. -/
def Hour : Int := 3600000000000

/-- The usage text of `handleTimerCommand` (line 82). -/
def usageMessage : String :=
  "Использование: /timer Xs или /timer Xm\nПример: /timer 30s или /timer 10m"

/-- The invalid-format text of `handleTimerCommand` (line 88). -/
def invalidFormatMessage : String :=
  "Неверный формат времени. Используйте: /timer 30s или /timer 10m"

/-- The max-duration text of `handleTimerCommand` (line 93). -/
def maxDurationMessage : String :=
  "Максимальное время таймера - 24 часа"

/-- Go `fmt.Sprintf("Таймер на %s установлен.", durationText)` (line 104). -/
def confirmationMessage (durationText : String) : String :=
  "Таймер на " ++ durationText ++ " установлен."

/-- Go `handleTimerCommand` (lines 80-106): the state of the manager afterwards and the texts
passed to `ch.sendMessage`, in order.  `SetTimer` always returns a nil error, so the branch
of lines 98-102 is never taken and has no counterpart here. -/
def handleTimerCommand (tm : TimerManager) (chatID : Int) (args : String) :
    TimerManager × List String :=
  if args = "" then (tm, [usageMessage])
  else if (parseTimerDuration args).err ≠ none then (tm, [invalidFormatMessage])
  else if (parseTimerDuration args).duration > 24 * Hour then (tm, [maxDurationMessage])
  else
    (SetTimer tm chatID (parseTimerDuration args).duration (parseTimerDuration args).text,
     [confirmationMessage (parseTimerDuration args).text])

/-! ## Facts about the registry operations -/

theorem mapDelete_cons (k : Int) (v : Timer) (rest : List (Int × Timer)) (c : Int) :
    mapDelete ((k, v) :: rest) c
      = if k = c then mapDelete rest c else (k, v) :: mapDelete rest c := by
  by_cases h : k = c <;> simp [mapDelete, h]

theorem mapCount_cons (k : Int) (v : Timer) (rest : List (Int × Timer)) (c : Int) :
    mapCount ((k, v) :: rest) c
      = if k = c then mapCount rest c + 1 else mapCount rest c := by
  by_cases h : k = c <;> simp [mapCount, h]

theorem mapGet_cons (k : Int) (v : Timer) (rest : List (Int × Timer)) (c : Int) :
    mapGet ((k, v) :: rest) c = if k = c then some v else mapGet rest c := rfl

theorem mapGet_mapDelete_self (m : List (Int × Timer)) (c : Int) :
    mapGet (mapDelete m c) c = none := by
  induction m with
  | nil => rfl
  | cons e rest ih =>
    obtain ⟨k, v⟩ := e
    rw [mapDelete_cons]
    split_ifs with h
    · exact ih
    · rw [mapGet_cons, if_neg h]; exact ih

theorem mapGet_mapDelete_ne (m : List (Int × Timer)) (c c' : Int) (h : c' ≠ c) :
    mapGet (mapDelete m c) c' = mapGet m c' := by
  induction m with
  | nil => rfl
  | cons e rest ih =>
    obtain ⟨k, v⟩ := e
    rw [mapDelete_cons, mapGet_cons]
    split_ifs with hk hk' hk'
    · exact absurd (hk'.symm.trans hk) h
    · exact ih
    · rw [mapGet_cons, if_pos hk']
    · rw [mapGet_cons, if_neg hk']; exact ih

theorem mapCount_mapDelete_self (m : List (Int × Timer)) (c : Int) :
    mapCount (mapDelete m c) c = 0 := by
  induction m with
  | nil => rfl
  | cons e rest ih =>
    obtain ⟨k, v⟩ := e
    rw [mapDelete_cons]
    split_ifs with h
    · exact ih
    · rw [mapCount_cons, if_neg h]; exact ih

theorem mapCount_mapDelete_ne (m : List (Int × Timer)) (c c' : Int) (h : c' ≠ c) :
    mapCount (mapDelete m c) c' = mapCount m c' := by
  induction m with
  | nil => rfl
  | cons e rest ih =>
    obtain ⟨k, v⟩ := e
    rw [mapDelete_cons, mapCount_cons]
    split_ifs with hk hk' hk'
    · exact absurd (hk'.symm.trans hk) h
    · exact ih
    · rw [mapCount_cons, if_pos hk', ih]
    · rw [mapCount_cons, if_neg hk']; exact ih

theorem mapDelete_of_absent (m : List (Int × Timer)) (c : Int) (h : mapGet m c = none) :
    mapDelete m c = m := by
  induction m with
  | nil => rfl
  | cons e rest ih =>
    obtain ⟨k, v⟩ := e
    rw [mapGet_cons] at h
    rw [mapDelete_cons]
    split_ifs at h ⊢ with hk
    rw [ih h]

theorem mapGet_mapSet_self (m : List (Int × Timer)) (c : Int) (v : Timer) :
    mapGet (mapSet m c v) c = some v := by
  simp [mapSet, mapGet]

theorem mapGet_mapSet_ne (m : List (Int × Timer)) (c c' : Int) (v : Timer) (h : c' ≠ c) :
    mapGet (mapSet m c v) c' = mapGet m c' := by
  have hc : ¬ c = c' := fun h' => h h'.symm
  rw [mapSet, mapGet_cons, if_neg hc, mapGet_mapDelete_ne m c c' h]

theorem mapCount_mapSet_self (m : List (Int × Timer)) (c : Int) (v : Timer) :
    mapCount (mapSet m c v) c = 1 := by
  rw [mapSet, mapCount_cons, if_pos rfl, mapCount_mapDelete_self]

theorem mapCount_mapSet_ne (m : List (Int × Timer)) (c c' : Int) (v : Timer) (h : c' ≠ c) :
    mapCount (mapSet m c v) c' = mapCount m c' := by
  have hc : ¬ c = c' := fun h' => h h'.symm
  rw [mapSet, mapCount_cons, if_neg hc, mapCount_mapDelete_ne m c c' h]

/-! ## C1: the firing step of a superseded goroutine -/

/-- C1 (evaluation of the code where the claim fails).  After `supersededSchedule` chat 7 is
registered to the newer Timer (handle 1, one minute) and the handle 0 of the expired Timer has
been invoked; the firing step of the superseded goroutine 0 (`delete(tm.timers, chatID)`) then
empties the registry, so `HasActiveTimer 7` is false and `CancelTimer 7` finds nothing, while
the goroutine of the newer Timer is still counting down with its context not cancelled. -/
theorem C1_superseded_firing_step_deletes_newer_timer :
    mapGet (run NewTimerManager supersededSchedule).timers 7
        = some ⟨7, 60000000000, 1000000000, 1⟩
      ∧ (run NewTimerManager supersededSchedule).cancelled = [0]
      ∧ (runTimerRemove (run NewTimerManager supersededSchedule) 0).timers = []
      ∧ HasActiveTimer (runTimerRemove (run NewTimerManager supersededSchedule) 0) 7 = false
      ∧ (CancelTimer (runTimerRemove (run NewTimerManager supersededSchedule) 0) 7).2 = false
      ∧ liveTasks (runTimerRemove (run NewTimerManager supersededSchedule) 0) 7
          = [⟨1, 7, 60000000000, "1 минуту", 1000000000, Phase.waiting⟩] := by
  decide

/-! ## Facts about `CancelTimer` and `SetTimer` -/

theorem CancelTimer_timers (tm : TimerManager) (c : Int) :
    (CancelTimer tm c).1.timers = mapDelete tm.timers c := by
  unfold CancelTimer
  cases h : mapGet tm.timers c with
  | none => exact (mapDelete_of_absent tm.timers c h).symm
  | some t => rfl

theorem CancelTimer_now (tm : TimerManager) (c : Int) :
    (CancelTimer tm c).1.now = tm.now ∧ (CancelTimer tm c).1.nextCtx = tm.nextCtx := by
  unfold CancelTimer
  cases mapGet tm.timers c <;> exact ⟨rfl, rfl⟩

theorem SetTimer_timers (tm : TimerManager) (c : Int) (d : Int) (txt : String) :
    (SetTimer tm c d txt).timers
      = mapSet (mapDelete tm.timers c) c ⟨c, d, tm.now, tm.nextCtx⟩ := by
  simp only [SetTimer, storeTimer, CancelTimer_timers, (CancelTimer_now tm c).1,
    (CancelTimer_now tm c).2]

theorem oneTimer_SetTimer (tm : TimerManager) (c : Int) (d : Int) (txt : String) :
    oneTimer (SetTimer tm c d txt) c := by
  unfold oneTimer HasActiveTimer
  rw [SetTimer_timers, mapGet_mapSet_self, mapCount_mapSet_self]
  exact ⟨rfl, rfl⟩

theorem oneTimer_step (tm : TimerManager) (c : Int) (e : Event)
    (he : sparesChat c e = true) (h : oneTimer tm c) : oneTimer (step tm e) c := by
  cases e with
  | setTimer c' d txt =>
    by_cases hc : c' = c
    · subst hc; exact oneTimer_SetTimer tm c' d txt
    · have hne : c ≠ c' := fun h' => hc h'.symm
      unfold oneTimer HasActiveTimer at h ⊢
      simp only [step]
      rw [SetTimer_timers, mapGet_mapSet_ne _ _ _ _ hne, mapCount_mapSet_ne _ _ _ _ hne,
        mapGet_mapDelete_ne _ _ _ hne, mapCount_mapDelete_ne _ _ _ hne]
      exact h
  | cancelTimer c' =>
    have hc : c' ≠ c := by simpa [sparesChat] using he
    have hne : c ≠ c' := fun h' => hc h'.symm
    unfold oneTimer HasActiveTimer at h ⊢
    simp only [step]
    rw [CancelTimer_timers, mapGet_mapDelete_ne _ _ _ hne, mapCount_mapDelete_ne _ _ _ hne]
    exact h
  | taskDone id => exact h
  | tick dt => exact h
  | stopAll => simp [sparesChat] at he
  | setCancel c' => simp [sparesChat] at he
  | setStore c' d txt => simp [sparesChat] at he
  | taskAfter id => simp [sparesChat] at he
  | taskRemove id => simp [sparesChat] at he
  | taskSend id => simp [sparesChat] at he

theorem oneTimer_run (c : Int) (evs : List Event) :
    ∀ tm : TimerManager, (∀ e ∈ evs, sparesChat c e = true) → oneTimer tm c →
      oneTimer (run tm evs) c := by
  induction evs with
  | nil => intro tm _ h; exact h
  | cons e rest ih =>
    intro tm hall h
    exact ih (step tm e) (fun e' he' => hall e' (List.mem_cons_of_mem e he'))
      (oneTimer_step tm c e (hall e (List.mem_cons_self e rest)) h)

/-! ## C2: one registered Timer after any sequence of `SetTimer` calls -/

/-- C2.  From every state of the manager, after every schedule that contains at least one
`SetTimer` call for chat `c` and otherwise only `SetTimer` calls for any chat, cancels of other
chats, returns of cancelled goroutines and clock ticks (no cancel of `c`, no `StopAll`, no
expiry), `HasActiveTimer c` is true and the registry holds exactly one Timer for `c`. -/
theorem C2_one_timer_after_set_sequence (tm : TimerManager) (c : Int) (evs : List Event)
    (hall : ∀ e ∈ evs, sparesChat c e = true)
    (hset : ∃ d txt, Event.setTimer c d txt ∈ evs) :
    HasActiveTimer (run tm evs) c = true ∧ mapCount (run tm evs).timers c = 1 := by
  suffices key : ∀ (evs : List Event) (tm : TimerManager),
      (∀ e ∈ evs, sparesChat c e = true) → (∃ d txt, Event.setTimer c d txt ∈ evs) →
        oneTimer (run tm evs) c from key evs tm hall hset
  intro evs
  induction evs with
  | nil =>
    intro tm _ hset
    obtain ⟨d, txt, hmem⟩ := hset
    exact absurd hmem (List.not_mem_nil _)
  | cons e rest ih =>
    intro tm hall hset
    have hrest : ∀ e' ∈ rest, sparesChat c e' = true :=
      fun e' he' => hall e' (List.mem_cons_of_mem e he')
    obtain ⟨d, txt, hmem⟩ := hset
    rcases List.mem_cons.mp hmem with heq | hin
    · subst heq
      exact oneTimer_run c rest _ hrest (oneTimer_SetTimer tm c d txt)
    · exact ih (step tm e) hrest ⟨d, txt, hin⟩

/-- C2 at a concrete schedule: three `SetTimer` calls for chat 7 interleaved with calls for
chats 8 and 9, a cancel of chat 8 and a clock tick. -/
theorem C2_one_timer_after_set_sequence_witness :
    HasActiveTimer (run NewTimerManager
        [Event.setTimer 7 30 "a", Event.setTimer 8 5 "b", Event.setTimer 7 60 "c",
         Event.tick 10, Event.cancelTimer 8, Event.setTimer 9 1 "d", Event.setTimer 7 0 "e"]) 7
      = true
    ∧ mapCount (run NewTimerManager
        [Event.setTimer 7 30 "a", Event.setTimer 8 5 "b", Event.setTimer 7 60 "c",
         Event.tick 10, Event.cancelTimer 8, Event.setTimer 9 1 "d", Event.setTimer 7 0 "e"]).timers 7
      = 1 :=
  C2_one_timer_after_set_sequence NewTimerManager 7 _ (by decide) ⟨30, "a", by decide⟩

/-! ## C4: CancelTimer -/

/-- C4.  `CancelTimer c` with no Timer registered for `c` returns false and leaves the whole
state (registry, invoked handles, goroutines, sent messages) as it was; with a Timer registered
it returns true, invokes exactly that Timer's handle, leaves the entries of every other chat
as they were, and `HasActiveTimer c` is false right after; a second `CancelTimer c` in a row
returns false. -/
theorem C4_cancel_timer (tm : TimerManager) (c : Int) :
    (mapGet tm.timers c = none → CancelTimer tm c = (tm, false))
    ∧ (∀ timer, mapGet tm.timers c = some timer →
        (CancelTimer tm c).2 = true
        ∧ (CancelTimer tm c).1.cancelled = tm.cancelled ++ [timer.CancelFunc]
        ∧ (∀ c', c' ≠ c →
            mapGet (CancelTimer tm c).1.timers c' = mapGet tm.timers c'
            ∧ mapCount (CancelTimer tm c).1.timers c' = mapCount tm.timers c')
        ∧ mapCount (CancelTimer tm c).1.timers c = 0
        ∧ (CancelTimer tm c).1.tasks = tm.tasks
        ∧ (CancelTimer tm c).1.sent = tm.sent
        ∧ HasActiveTimer (CancelTimer tm c).1 c = false)
    ∧ HasActiveTimer (CancelTimer tm c).1 c = false
    ∧ (CancelTimer (CancelTimer tm c).1 c).2 = false := by
  have hgone : mapGet (CancelTimer tm c).1.timers c = none := by
    rw [CancelTimer_timers]; exact mapGet_mapDelete_self tm.timers c
  have hnot : HasActiveTimer (CancelTimer tm c).1 c = false := by
    unfold HasActiveTimer; rw [hgone]; rfl
  refine ⟨?_, ?_, hnot, ?_⟩
  · intro h
    unfold CancelTimer
    rw [h]
  · intro timer h
    refine ⟨?_, ?_, ?_, ?_, ?_, ?_, hnot⟩
    · unfold CancelTimer; rw [h]
    · unfold CancelTimer; rw [h]
    · intro c' hc'
      rw [CancelTimer_timers]
      exact ⟨mapGet_mapDelete_ne _ _ _ hc', mapCount_mapDelete_ne _ _ _ hc'⟩
    · rw [CancelTimer_timers]; exact mapCount_mapDelete_self _ _
    · unfold CancelTimer; rw [h]
    · unfold CancelTimer; rw [h]
  · generalize (CancelTimer tm c).1 = tm1 at hgone
    unfold CancelTimer
    rw [hgone]

/-! ## Cancelled contexts stay cancelled, and a cancelled goroutine issues nothing -/

theorem CancelTimer_sent (tm : TimerManager) (c : Int) :
    (CancelTimer tm c).1.sent = tm.sent ∧ (CancelTimer tm c).1.tasks = tm.tasks := by
  unfold CancelTimer
  cases mapGet tm.timers c <;> exact ⟨rfl, rfl⟩

theorem CancelTimer_cancelled_mono (tm : TimerManager) (c : Int) (id : Nat)
    (h : id ∈ tm.cancelled) : id ∈ (CancelTimer tm c).1.cancelled := by
  unfold CancelTimer
  cases mapGet tm.timers c with
  | none => exact h
  | some t => exact List.mem_append_left _ h

theorem CancelTimer_of_registered (tm : TimerManager) (c : Int) (timer : Timer)
    (h : mapGet tm.timers c = some timer) :
    (CancelTimer tm c).1.cancelled = tm.cancelled ++ [timer.CancelFunc] := by
  unfold CancelTimer
  rw [h]

theorem step_cancelled_mono (tm : TimerManager) (e : Event) (id : Nat)
    (h : id ∈ tm.cancelled) : id ∈ (step tm e).cancelled := by
  cases e with
  | setTimer c d txt => exact CancelTimer_cancelled_mono tm c id h
  | cancelTimer c => exact CancelTimer_cancelled_mono tm c id h
  | stopAll => exact List.mem_append_left _ h
  | setCancel c => exact CancelTimer_cancelled_mono tm c id h
  | setStore c d txt => exact h
  | taskDone k => exact h
  | taskAfter k => exact h
  | taskRemove k =>
    simp only [step, runTimerRemove]
    split <;> exact h
  | taskSend k =>
    simp only [step, runTimerSend]
    split <;> exact h
  | tick dt => exact h

theorem step_sent (tm : TimerManager) (e : Event) :
    ∃ new, (step tm e).sent = tm.sent ++ new
      ∧ ∀ n ∈ new, n.ctx ∈ tm.cancelled → n.issued = false := by
  have hnil : ∀ tm' : TimerManager, tm'.sent = tm.sent →
      ∃ new, tm'.sent = tm.sent ++ new ∧ ∀ n ∈ new, n.ctx ∈ tm.cancelled → n.issued = false :=
    fun tm' h => ⟨[], by rw [h, List.append_nil], fun n hn => absurd hn (List.not_mem_nil n)⟩
  cases e with
  | setTimer c d txt => exact hnil _ (CancelTimer_sent tm c).1
  | cancelTimer c => exact hnil _ (CancelTimer_sent tm c).1
  | stopAll => exact hnil _ rfl
  | setCancel c => exact hnil _ (CancelTimer_sent tm c).1
  | setStore c d txt => exact hnil _ rfl
  | taskDone k => exact hnil _ rfl
  | taskAfter k => exact hnil _ rfl
  | taskRemove k =>
    simp only [step, runTimerRemove]
    split
    · exact hnil _ rfl
    · exact hnil _ rfl
  | taskSend k =>
    simp only [step, runTimerSend]
    split
    · rename_i t _
      refine ⟨[⟨t.chatID, k, decide (k ∉ tm.cancelled)⟩], rfl, ?_⟩
      intro n hn hc
      rw [List.mem_singleton] at hn
      subst hn
      simpa using hc
    · exact hnil _ rfl
  | tick dt => exact hnil _ rfl

theorem run_sent (evs : List Event) :
    ∀ tm : TimerManager, ∃ new, (run tm evs).sent = tm.sent ++ new
      ∧ ∀ n ∈ new, n.ctx ∈ tm.cancelled → n.issued = false := by
  induction evs with
  | nil =>
    intro tm
    exact ⟨[], (List.append_nil _).symm, fun n hn => absurd hn (List.not_mem_nil n)⟩
  | cons e rest ih =>
    intro tm
    obtain ⟨new1, h1, hc1⟩ := step_sent tm e
    obtain ⟨new2, h2, hc2⟩ := ih (step tm e)
    refine ⟨new1 ++ new2, ?_, ?_⟩
    · show (run (step tm e) rest).sent = tm.sent ++ (new1 ++ new2)
      rw [h2, h1, List.append_assoc]
    · intro n hn hc
      rcases List.mem_append.mp hn with hn | hn
      · exact hc1 n hn hc
      · exact hc2 n hn (step_cancelled_mono tm e n.ctx hc)

/-! ## C3: Set followed by Set -/

/-- C3.  From every state, `SetTimer(c, d1)` followed at once by `SetTimer(c, d2)` leaves `c`
registered with exactly one Timer, whose duration is `d2`; the cancellation handle of the `d1`
Timer has been invoked; the goroutine spawned for `d1` is there, and in every schedule that
follows no `SendMessage` call made with the context of the `d1` Timer issues a notification. -/
theorem C3_set_then_set (tm : TimerManager) (c d1 d2 : Int) (t1 t2 : String)
    (evs : List Event) :
    mapGet (SetTimer (SetTimer tm c d1 t1) c d2 t2).timers c
        = some ⟨c, d2, tm.now, tm.nextCtx + 1⟩
    ∧ mapCount (SetTimer (SetTimer tm c d1 t1) c d2 t2).timers c = 1
    ∧ mapGet (SetTimer tm c d1 t1).timers c = some ⟨c, d1, tm.now, tm.nextCtx⟩
    ∧ tm.nextCtx ∈ (SetTimer (SetTimer tm c d1 t1) c d2 t2).cancelled
    ∧ (⟨tm.nextCtx, c, d1, t1, tm.now, Phase.waiting⟩ : Task)
        ∈ (SetTimer (SetTimer tm c d1 t1) c d2 t2).tasks
    ∧ ∃ new, (run (SetTimer (SetTimer tm c d1 t1) c d2 t2) evs).sent
          = (SetTimer (SetTimer tm c d1 t1) c d2 t2).sent ++ new
        ∧ ∀ n ∈ new, n.ctx = tm.nextCtx → n.issued = false := by
  have hfirst : mapGet (SetTimer tm c d1 t1).timers c = some ⟨c, d1, tm.now, tm.nextCtx⟩ := by
    rw [SetTimer_timers, mapGet_mapSet_self]
  have hnow1 : (SetTimer tm c d1 t1).now = tm.now := (CancelTimer_now tm c).1
  have hctx1 : (SetTimer tm c d1 t1).nextCtx = tm.nextCtx + 1 := by
    show (CancelTimer tm c).1.nextCtx + 1 = tm.nextCtx + 1
    rw [(CancelTimer_now tm c).2]
  have hcan : tm.nextCtx ∈ (SetTimer (SetTimer tm c d1 t1) c d2 t2).cancelled := by
    show tm.nextCtx ∈ (CancelTimer (SetTimer tm c d1 t1) c).1.cancelled
    rw [CancelTimer_of_registered _ _ _ hfirst]
    exact List.mem_append_right _ (List.mem_singleton_self _)
  have htask : (⟨tm.nextCtx, c, d1, t1, tm.now, Phase.waiting⟩ : Task)
      ∈ (SetTimer (SetTimer tm c d1 t1) c d2 t2).tasks := by
    show _ ∈ (CancelTimer (SetTimer tm c d1 t1) c).1.tasks ++ _
    rw [(CancelTimer_sent _ c).2]
    apply List.mem_append_left
    show _ ∈ (CancelTimer tm c).1.tasks ++ _
    rw [(CancelTimer_now tm c).1, (CancelTimer_now tm c).2]
    exact List.mem_append_right _ (List.mem_singleton_self _)
  refine ⟨?_, ?_, hfirst, hcan, htask, ?_⟩
  · rw [SetTimer_timers, mapGet_mapSet_self, hnow1, hctx1]
  · rw [SetTimer_timers, mapCount_mapSet_self]
  · obtain ⟨new, hnew, hc⟩ := run_sent evs (SetTimer (SetTimer tm c d1 t1) c d2 t2)
    exact ⟨new, hnew, fun n hn hid => hc n hn (hid ▸ hcan)⟩

/-- The race behind C1 seen from C3: after `setTwice` the goroutine of the first Timer can still
take its `time.After` case; it then deletes the entry of the second Timer, and its
`SendMessage` call, made with the cancelled context, issues nothing. -/
theorem superseded_task_call_not_issued :
    (run NewTimerManager (setTwice ++ firstTaskFires)).sent = [⟨7, 0, false⟩]
      ∧ HasActiveTimer (run NewTimerManager (setTwice ++ firstTaskFires)) 7 = false
      ∧ (run NewTimerManager (setTwice ++ firstTaskFires ++
          [Event.tick 60000000000, Event.taskAfter 1, Event.taskRemove 1, Event.taskSend 1])).sent
          = [⟨7, 0, false⟩, ⟨7, 1, true⟩] := by
  decide

/-! ## C5: StopAll -/

theorem mem_of_mapGet (m : List (Int × Timer)) (c : Int) (timer : Timer)
    (h : mapGet m c = some timer) : (c, timer) ∈ m := by
  induction m with
  | nil => simp [mapGet] at h
  | cons e rest ih =>
    obtain ⟨k, v⟩ := e
    rw [mapGet_cons] at h
    split_ifs at h with hk
    · have hv : v = timer := Option.some.inj h
      rw [hk, hv]; exact List.mem_cons_self _ _
    · exact List.mem_cons_of_mem _ (ih h)

/-- C5.  From every state, `StopAll` invokes the cancellation handle of every registered Timer
and leaves the registry empty, so `HasActiveTimer` is false for every chat; and in every
schedule that follows, no `SendMessage` call made with the context of a Timer that was
registered at that moment issues a notification, whatever its duration. -/
theorem C5_stop_all (tm : TimerManager) (evs : List Event) :
    (∀ c timer, mapGet tm.timers c = some timer → timer.CancelFunc ∈ (StopAll tm).cancelled)
    ∧ (StopAll tm).timers = []
    ∧ (∀ c, HasActiveTimer (StopAll tm) c = false)
    ∧ ∃ new, (run (StopAll tm) evs).sent = (StopAll tm).sent ++ new
        ∧ ∀ c timer, mapGet tm.timers c = some timer →
            ∀ n ∈ new, n.ctx = timer.CancelFunc → n.issued = false := by
  have hall : ∀ c timer, mapGet tm.timers c = some timer →
      timer.CancelFunc ∈ (StopAll tm).cancelled := by
    intro c timer h
    simp only [StopAll, List.mem_append, List.mem_map]
    exact Or.inr ⟨(c, timer), mem_of_mapGet _ _ _ h, rfl⟩
  refine ⟨hall, rfl, fun c => rfl, ?_⟩
  obtain ⟨new, hnew, hc⟩ := run_sent evs (StopAll tm)
  exact ⟨new, hnew, fun c timer h n hn hid => hc n hn (hid ▸ hall c timer h)⟩

/-- StopAll while the goroutine of a registered Timer has already taken its `time.After` case:
the goroutine still runs its critical section and calls `SendMessage`, with the cancelled
context, and nothing is issued. -/
theorem stopped_task_call_not_issued :
    HasActiveTimer (run NewTimerManager [Event.setTimer 7 0 "0 секунды", Event.taskAfter 0]) 7
        = true
      ∧ (run NewTimerManager
          [Event.setTimer 7 0 "0 секунды", Event.taskAfter 0, Event.stopAll,
           Event.taskRemove 0, Event.taskSend 0]).sent = [⟨7, 0, false⟩] := by
  decide

/-! ## C10: atomicity of SetTimer -/

/-- The two critical sections of `SetTimer`, run back to back, are the sequential `SetTimer`. -/
theorem setCancel_setStore_eq_SetTimer (tm : TimerManager) (c d : Int) (txt : String) :
    run tm [Event.setCancel c, Event.setStore c d txt] = run tm [Event.setTimer c d txt] :=
  rfl

/-- C10 (evaluation of the code where the claim fails).  `SetTimer` takes `tm.mu` twice, once
inside `CancelTimer` and once for the store.  When two concurrent calls for chat 7 both run
`CancelTimer` before either stores, the second store overwrites the first Timer without
invoking its handle: no handle is invoked, the registry holds the second Timer, and two
goroutines for chat 7 are counting down with contexts that are not cancelled; both later
issue their notification.
A caller that observes the registry between the two halves of a replacing `SetTimer` sees
neither the old nor the new Timer. -/
theorem C10_set_timer_not_atomic :
    (run NewTimerManager concurrentSets).cancelled = []
      ∧ mapGet (run NewTimerManager concurrentSets).timers 7
          = some ⟨7, 2000000000, 0, 1⟩
      ∧ (liveTasks (run NewTimerManager concurrentSets) 7).map (fun t => t.ctx) = [0, 1]
      ∧ (run NewTimerManager (concurrentSets ++ bothTasksFire)).sent
          = [⟨7, 0, true⟩, ⟨7, 1, true⟩]
      ∧ HasActiveTimer (run NewTimerManager
          [Event.setTimer 7 1000000000 "1 секунду", Event.setCancel 7]) 7 = false := by
  decide

/-! ## Facts about the duration parser -/

theorem FindStringSubmatch_eq_some_iff (s ds : List Char) (u : Char) :
    FindStringSubmatch s = some (ds, u)
      ↔ s = ds ++ [u] ∧ ds ≠ [] ∧ (∀ c ∈ ds, isDigit c = true) ∧ (u = 's' ∨ u = 'm') := by
  constructor
  · intro h
    have hsplit : s.takeWhile isDigit ++ s.dropWhile isDigit = s :=
      List.takeWhile_append_dropWhile isDigit s
    have hdig : ∀ c ∈ s.takeWhile isDigit, isDigit c = true :=
      fun c hc => List.mem_takeWhile_imp hc
    unfold FindStringSubmatch at h
    generalize s.takeWhile isDigit = t at h hsplit hdig
    generalize s.dropWhile isDigit = r at h hsplit
    cases t with
    | nil => simp at h
    | cons d t' =>
      cases r with
      | nil => simp at h
      | cons u' r' =>
        cases r' with
        | cons x y => simp at h
        | nil =>
          simp only at h
          split_ifs at h with hu
          have hpair := Option.some.inj h
          have h1 : d :: t' = ds := congrArg Prod.fst hpair
          have h2 : u' = u := congrArg Prod.snd hpair
          subst h1; subst h2
          exact ⟨hsplit.symm, List.cons_ne_nil _ _, hdig, hu⟩
  · rintro ⟨hs, hne, hdig, hu⟩
    have hnd : ¬ (isDigit u = true) := by
      rcases hu with hu | hu <;> subst hu <;> decide
    have h1 : s.takeWhile isDigit = ds := by
      rw [hs, List.takeWhile_append_of_pos hdig, List.takeWhile_cons_of_neg hnd]
      simp
    have h2 : s.dropWhile isDigit = [u] := by
      rw [hs, List.dropWhile_append_of_pos hdig, List.dropWhile_cons_of_neg hnd]
    unfold FindStringSubmatch
    rw [h1, h2]
    cases ds with
    | nil => exact absurd rfl hne
    | cons d t' => simp [hu]

theorem Atoi_of_digits (ds : List Char) (hne : ds ≠ []) (hdig : ∀ c ∈ ds, isDigit c = true) :
    Atoi ds = if (decimalValue ds : Int) ≤ maxInt64 then Except.ok (decimalValue ds : Int)
      else Except.error (numError ds "value out of range") := by
  cases ds with
  | nil => exact absurd rfl hne
  | cons d t =>
    have hd : isDigit d = true := hdig d (List.mem_cons_self _ _)
    have hminus : d ≠ '-' := by
      intro h; subst h; exact absurd hd (by decide)
    have hplus : d ≠ '+' := by
      intro h; subst h; exact absurd hd (by decide)
    have hall : (d :: t).all isDigit = true := List.all_eq_true.mpr hdig
    unfold Atoi
    simp only [List.head?_cons, Option.some.injEq, hminus, hplus, or_self, if_false,
      decide_False, hall, not_true_eq_false, or_false, Bool.false_eq_true]
    simp

theorem wrap64_of_range (x : Int) (h1 : -9223372036854775808 ≤ x) (h2 : x ≤ 9223372036854775807) :
    wrap64 x = x := by
  unfold wrap64
  omega

theorem parse_seconds (input : String) (ds : List Char)
    (hs : ToLower (TrimSpace input.data) = ds ++ ['s']) (hne : ds ≠ [])
    (hdig : ∀ c ∈ ds, isDigit c = true) :
    (decimalValue ds ≤ 86400 →
      parseTimerDuration input
        = ⟨(decimalValue ds : Int) * Second,
           if (decimalValue ds : Int) = 1 then "1 секунду"
           else if (decimalValue ds : Int) < 5 then toString (decimalValue ds : Int) ++ " секунды"
           else toString (decimalValue ds : Int) ++ " секунд",
           none⟩)
    ∧ (86400 < decimalValue ds →
      (parseTimerDuration input).err ≠ none ∧ (parseTimerDuration input).duration = 0
        ∧ (parseTimerDuration input).text = "") := by
  have hm : FindStringSubmatch (ToLower (TrimSpace input.data)) = some (ds, 's') :=
    (FindStringSubmatch_eq_some_iff _ _ _).mpr ⟨hs, hne, hdig, Or.inl rfl⟩
  have ha := Atoi_of_digits ds hne hdig
  constructor
  · intro hle
    have hle' : (decimalValue ds : Int) ≤ 86400 := by exact_mod_cast hle
    have hmax : (decimalValue ds : Int) ≤ maxInt64 := by unfold maxInt64; omega
    have hnot : ¬ ((decimalValue ds : Int) > 86400) := by omega
    have hw : wrap64 ((decimalValue ds : Int) * Second) = (decimalValue ds : Int) * Second := by
      apply wrap64_of_range <;> unfold Second <;> omega
    rw [if_pos hmax] at ha
    unfold parseTimerDuration
    rw [hm]
    simp only [ha, if_true, hnot, if_false, hw]
  · intro hgt
    have hgt' : (decimalValue ds : Int) > 86400 := by exact_mod_cast hgt
    unfold parseTimerDuration
    rw [hm]
    by_cases hmax : (decimalValue ds : Int) ≤ maxInt64
    · rw [if_pos hmax] at ha
      simp [ha, hgt']
    · rw [if_neg hmax] at ha
      simp [ha]

theorem parse_minutes (input : String) (ds : List Char)
    (hs : ToLower (TrimSpace input.data) = ds ++ ['m']) (hne : ds ≠ [])
    (hdig : ∀ c ∈ ds, isDigit c = true) :
    (decimalValue ds ≤ 1440 →
      parseTimerDuration input
        = ⟨(decimalValue ds : Int) * Minute,
           if (decimalValue ds : Int) = 1 then "1 минуту"
           else if (decimalValue ds : Int) < 5 then toString (decimalValue ds : Int) ++ " минуты"
           else toString (decimalValue ds : Int) ++ " минут",
           none⟩)
    ∧ (1440 < decimalValue ds →
      (parseTimerDuration input).err ≠ none ∧ (parseTimerDuration input).duration = 0
        ∧ (parseTimerDuration input).text = "") := by
  have hm : FindStringSubmatch (ToLower (TrimSpace input.data)) = some (ds, 'm') :=
    (FindStringSubmatch_eq_some_iff _ _ _).mpr ⟨hs, hne, hdig, Or.inr rfl⟩
  have ha := Atoi_of_digits ds hne hdig
  have hms : ¬ ('m' = 's') := by decide
  constructor
  · intro hle
    have hle' : (decimalValue ds : Int) ≤ 1440 := by exact_mod_cast hle
    have hmax : (decimalValue ds : Int) ≤ maxInt64 := by unfold maxInt64; omega
    have hnot : ¬ ((decimalValue ds : Int) > 1440) := by omega
    have hw : wrap64 ((decimalValue ds : Int) * Minute) = (decimalValue ds : Int) * Minute := by
      apply wrap64_of_range <;> unfold Minute <;> omega
    rw [if_pos hmax] at ha
    unfold parseTimerDuration
    rw [hm]
    simp only [ha, hms, if_true, hnot, if_false, hw]
  · intro hgt
    have hgt' : (decimalValue ds : Int) > 1440 := by exact_mod_cast hgt
    unfold parseTimerDuration
    rw [hm]
    by_cases hmax : (decimalValue ds : Int) ≤ maxInt64
    · rw [if_pos hmax] at ha
      simp [ha, hgt']
    · rw [if_neg hmax] at ha
      simp [ha]

theorem parse_no_match (input : String)
    (h : FindStringSubmatch (ToLower (TrimSpace input.data)) = none) :
    parseTimerDuration input = ⟨0, "", some "invalid format"⟩ := by
  unfold parseTimerDuration
  rw [h]

theorem isSpace_of_isDigit (c : Char) (h : isDigit c = true) : ¬ (isSpace c = true) := by
  simp only [isDigit, Bool.and_eq_true, decide_eq_true_eq] at h
  simp only [isSpace, Bool.or_eq_true, Bool.and_eq_true, decide_eq_true_eq]
  omega

theorem toLowerRune_of_isDigit (c : Char) (h : isDigit c = true) : toLowerRune c = c := by
  simp only [isDigit, Bool.and_eq_true, decide_eq_true_eq] at h
  have hc : c = Char.ofNat c.toNat := (Char.ofNat_toNat c).symm
  obtain ⟨h1, h2⟩ := h
  generalize c.toNat = n at hc h1 h2
  subst hc
  interval_cases n <;> decide

theorem ToLower_digits (ds : List Char) (hdig : ∀ c ∈ ds, isDigit c = true) :
    ToLower ds = ds := by
  induction ds with
  | nil => rfl
  | cons d t ih =>
    have hd := toLowerRune_of_isDigit d (hdig d (List.mem_cons_self _ _))
    have ht := ih (fun c hc => hdig c (List.mem_cons_of_mem _ hc))
    simp only [ToLower, List.map_cons] at ht ⊢
    rw [hd, ht]

theorem TrimSpace_padded (ws1 ws2 ds : List Char) (u : Char)
    (h1 : ∀ c ∈ ws1, isSpace c = true) (h2 : ∀ c ∈ ws2, isSpace c = true)
    (hne : ds ≠ []) (hdig : ∀ c ∈ ds, isDigit c = true) (hu : ¬ (isSpace u = true)) :
    TrimSpace (ws1 ++ ds ++ [u] ++ ws2) = ds ++ [u] := by
  cases ds with
  | nil => exact absurd rfl hne
  | cons d t =>
    have hd : ¬ (isSpace d = true) := isSpace_of_isDigit d (hdig d (List.mem_cons_self _ _))
    have hrev : ∀ c ∈ ws2.reverse, isSpace c = true := fun c hc => h2 c (List.mem_reverse.mp hc)
    unfold TrimSpace
    have e1 : ws1 ++ d :: t ++ [u] ++ ws2 = ws1 ++ (d :: (t ++ [u] ++ ws2)) := by simp
    rw [e1, List.dropWhile_append_of_pos h1, List.dropWhile_cons_of_neg hd]
    have e2 : (d :: (t ++ [u] ++ ws2)).reverse = ws2.reverse ++ (u :: (d :: t).reverse) := by simp
    rw [e2, List.dropWhile_append_of_pos hrev, List.dropWhile_cons_of_neg hu]
    simp

theorem normalize_padded (ws1 ws2 ds : List Char) (u : Char)
    (h1 : ∀ c ∈ ws1, isSpace c = true) (h2 : ∀ c ∈ ws2, isSpace c = true)
    (hne : ds ≠ []) (hdig : ∀ c ∈ ds, isDigit c = true) (hu : ¬ (isSpace u = true)) :
    ToLower (TrimSpace (String.mk (ws1 ++ ds ++ [u] ++ ws2)).data) = ds ++ [toLowerRune u] := by
  show ToLower (TrimSpace (ws1 ++ ds ++ [u] ++ ws2)) = ds ++ [toLowerRune u]
  rw [TrimSpace_padded ws1 ws2 ds u h1 h2 hne hdig hu]
  have hd := ToLower_digits ds hdig
  simp only [ToLower, List.map_append, List.map_cons, List.map_nil] at hd ⊢
  rw [hd]

/-! ## C6: which inputs parse, and to what -/

/-- C6.  `parseTimerDuration` returns a nil error exactly when the trimmed, lower-cased input is
one or more decimal digits followed by one letter `s` or `m` and nothing else, with the number
(of any length) at most 86400 for `s` and 1440 for `m`; the duration is then that number of
seconds or minutes; whenever it returns an error the duration is zero and the label empty.
Trimming and lower-casing are as in Go: a digit run followed by `s`, `S`, `m` or `M`, with any
white space before and after, is accepted with the same value.  `30s`, `1m` and `0s` are
accepted with 30 seconds, one minute and zero; `25h`, `99999s`, `abc`, `30 s`, `-5s` and a
number beyond the machine integer are rejected. -/
theorem C6_parse_timer_duration (input : String) :
    ((parseTimerDuration input).err = none ↔
        ∃ ds u, ToLower (TrimSpace input.data) = ds ++ [u] ∧ ds ≠ []
          ∧ (∀ c ∈ ds, isDigit c = true)
          ∧ ((u = 's' ∧ decimalValue ds ≤ 86400) ∨ (u = 'm' ∧ decimalValue ds ≤ 1440)))
    ∧ (∀ ds u, ToLower (TrimSpace input.data) = ds ++ [u] → ds ≠ [] →
        (∀ c ∈ ds, isDigit c = true) →
          (u = 's' → decimalValue ds ≤ 86400 →
            (parseTimerDuration input).duration = (decimalValue ds : Int) * Second)
          ∧ (u = 'm' → decimalValue ds ≤ 1440 →
            (parseTimerDuration input).duration = (decimalValue ds : Int) * Minute))
    ∧ ((parseTimerDuration input).err ≠ none →
        (parseTimerDuration input).duration = 0 ∧ (parseTimerDuration input).text = "")
    ∧ (parseTimerDuration "30s").duration = 30 * Second ∧ (parseTimerDuration "30s").err = none
    ∧ (parseTimerDuration "1m").duration = 1 * Minute ∧ (parseTimerDuration "1m").err = none
    ∧ (parseTimerDuration "0s").duration = 0 ∧ (parseTimerDuration "0s").err = none
    ∧ parseTimerDuration "25h" = ⟨0, "", some "invalid format"⟩
    ∧ parseTimerDuration "99999s" = ⟨0, "", some "too many seconds"⟩
    ∧ parseTimerDuration "abc" = ⟨0, "", some "invalid format"⟩
    ∧ parseTimerDuration "30 s" = ⟨0, "", some "invalid format"⟩
    ∧ parseTimerDuration "-5s" = ⟨0, "", some "invalid format"⟩
    ∧ parseTimerDuration "9223372036854775808s"
        = ⟨0, "", some ("invalid number: strconv.Atoi: parsing \"9223372036854775808\": "
            ++ "value out of range")⟩
    ∧ (∀ (ws1 ws2 ds : List Char) (u : Char),
        (∀ c ∈ ws1, isSpace c = true) → (∀ c ∈ ws2, isSpace c = true) →
        ds ≠ [] → (∀ c ∈ ds, isDigit c = true) →
          ((u = 's' ∨ u = 'S') → decimalValue ds ≤ 86400 →
            (parseTimerDuration (String.mk (ws1 ++ ds ++ [u] ++ ws2))).err = none
            ∧ (parseTimerDuration (String.mk (ws1 ++ ds ++ [u] ++ ws2))).duration
                = (decimalValue ds : Int) * Second)
          ∧ ((u = 'm' ∨ u = 'M') → decimalValue ds ≤ 1440 →
            (parseTimerDuration (String.mk (ws1 ++ ds ++ [u] ++ ws2))).err = none
            ∧ (parseTimerDuration (String.mk (ws1 ++ ds ++ [u] ++ ws2))).duration
                = (decimalValue ds : Int) * Minute))
    ∧ parseTimerDuration " 30s " = ⟨30000000000, "30 секунд", none⟩
    ∧ parseTimerDuration "30S" = ⟨30000000000, "30 секунд", none⟩
    ∧ parseTimerDuration "\t10M\r\n" = ⟨600000000000, "10 минут", none⟩
    ∧ parseTimerDuration "\u00a02m\u3000" = ⟨120000000000, "2 минуты", none⟩
    ∧ parseTimerDuration "007s" = ⟨7000000000, "7 секунд", none⟩
    ∧ parseTimerDuration "86400s" = ⟨86400000000000, "86400 секунд", none⟩
    ∧ parseTimerDuration "1440m" = ⟨86400000000000, "1440 минут", none⟩
    ∧ parseTimerDuration "86401s" = ⟨0, "", some "too many seconds"⟩
    ∧ parseTimerDuration "1441m" = ⟨0, "", some "too many minutes"⟩
    ∧ parseTimerDuration "3 0s" = ⟨0, "", some "invalid format"⟩
    ∧ parseTimerDuration "30sm" = ⟨0, "", some "invalid format"⟩
    ∧ parseTimerDuration "s" = ⟨0, "", some "invalid format"⟩
    ∧ parseTimerDuration "" = ⟨0, "", some "invalid format"⟩ := by
  refine ⟨⟨?_, ?_⟩, ?_, ?_, by decide, by decide, by decide, by decide, by decide, by decide,
    by decide, by decide, by decide, by decide, by decide, by decide, ?_,
    by decide, by decide, by decide, by decide, by decide, by decide, by decide, by decide,
    by decide, by decide, by decide, by decide, by decide⟩
  rotate_left 4
  · intro ws1 ws2 ds u h1 h2 hne hdig
    constructor
    · intro hu hle
      have hsp : ¬ (isSpace u = true) := by rcases hu with hu | hu <;> subst hu <;> decide
      have hlow : toLowerRune u = 's' := by rcases hu with hu | hu <;> subst hu <;> decide
      have hs := normalize_padded ws1 ws2 ds u h1 h2 hne hdig hsp
      rw [hlow] at hs
      rw [(parse_seconds _ ds hs hne hdig).1 hle]
      exact ⟨rfl, rfl⟩
    · intro hu hle
      have hsp : ¬ (isSpace u = true) := by rcases hu with hu | hu <;> subst hu <;> decide
      have hlow : toLowerRune u = 'm' := by rcases hu with hu | hu <;> subst hu <;> decide
      have hs := normalize_padded ws1 ws2 ds u h1 h2 hne hdig hsp
      rw [hlow] at hs
      rw [(parse_minutes _ ds hs hne hdig).1 hle]
      exact ⟨rfl, rfl⟩
  · intro herr
    cases hfind : FindStringSubmatch (ToLower (TrimSpace input.data)) with
    | none =>
      rw [parse_no_match input hfind] at herr
      exact absurd herr (by simp)
    | some p =>
      obtain ⟨ds, u⟩ := p
      obtain ⟨hs, hne, hdig, hu⟩ := (FindStringSubmatch_eq_some_iff _ _ _).mp hfind
      rcases hu with hu | hu
      · subst hu
        by_cases hle : decimalValue ds ≤ 86400
        · exact ⟨ds, 's', hs, hne, hdig, Or.inl ⟨rfl, hle⟩⟩
        · exact absurd herr ((parse_seconds input ds hs hne hdig).2 (by omega)).1
      · subst hu
        by_cases hle : decimalValue ds ≤ 1440
        · exact ⟨ds, 'm', hs, hne, hdig, Or.inr ⟨rfl, hle⟩⟩
        · exact absurd herr ((parse_minutes input ds hs hne hdig).2 (by omega)).1
  · rintro ⟨ds, u, hs, hne, hdig, ⟨hu, hle⟩ | ⟨hu, hle⟩⟩
    · subst hu
      rw [(parse_seconds input ds hs hne hdig).1 hle]
    · subst hu
      rw [(parse_minutes input ds hs hne hdig).1 hle]
  · intro ds u hs hne hdig
    constructor
    · intro hu hle
      subst hu
      rw [(parse_seconds input ds hs hne hdig).1 hle]
    · intro hu hle
      subst hu
      rw [(parse_minutes input ds hs hne hdig).1 hle]
  · intro herr
    cases hfind : FindStringSubmatch (ToLower (TrimSpace input.data)) with
    | none =>
      rw [parse_no_match input hfind]
      exact ⟨rfl, rfl⟩
    | some p =>
      obtain ⟨ds, u⟩ := p
      obtain ⟨hs, hne, hdig, hu⟩ := (FindStringSubmatch_eq_some_iff _ _ _).mp hfind
      rcases hu with hu | hu
      · subst hu
        by_cases hle : decimalValue ds ≤ 86400
        · rw [(parse_seconds input ds hs hne hdig).1 hle] at herr
          exact absurd rfl herr
        · exact ((parse_seconds input ds hs hne hdig).2 (by omega)).2
      · subst hu
        by_cases hle : decimalValue ds ≤ 1440
        · rw [(parse_minutes input ds hs hne hdig).1 hle] at herr
          exact absurd rfl herr
        · exact ((parse_minutes input ds hs hne hdig).2 (by omega)).2

/-! ## C7: plural form of the label -/

/-- C7 (evaluation of the code where the claim fails).  For the accepted inputs `0s` and `0m` the
label is built by the `number < 5` branch, the form used for 2, 3 and 4 (`3 секунды`,
`3 минуты`), and not the form used from 5 on (`30 секунд`, `5 минут`); the other witnesses of
the claim come out as stated (`1m` singular, `3s` few, `30s` many). -/
theorem C7_zero_gets_few_form :
    parseTimerDuration "0s" = ⟨0, "0 секунды", none⟩
      ∧ parseTimerDuration "0m" = ⟨0, "0 минуты", none⟩
      ∧ (parseTimerDuration "3s").text = "3 секунды"
      ∧ (parseTimerDuration "3m").text = "3 минуты"
      ∧ (parseTimerDuration "30s").text = "30 секунд"
      ∧ (parseTimerDuration "5m").text = "5 минут"
      ∧ (parseTimerDuration "1m").text = "1 минуту"
      ∧ (parseTimerDuration "1s").text = "1 секунду" := by
  decide

/-! ## C8: bounded retry with exponential backoff -/

theorem backoff_one : backoff 1 = 2 * Second := by decide

theorem backoff_two : backoff 2 = 4 * Second := by decide

/-- C8.  With no cancellation of `ctx`, for every assignment of outcomes to the attempts:
`SendMessage` calls the remote API at most 3 times; when attempt `i` (0, 1 or 2) is the first to
succeed it returns nil after exactly `i + 1` attempts, having waited `2^k` seconds after the
`k`-th failure for `k = 1..i`; when all three attempts fail it returns the error that wraps the
failure of the third attempt, after waits of 2 and 4 seconds; two failures followed by a
success give nil after a total wait of 6 seconds. -/
theorem C8_send_message_retry (outcome : Nat → Option String) (ctxDone : Nat → Bool)
    (hctx : ∀ k, ctxDone k = false) :
    (SendMessage outcome ctxDone).attempts ≤ 3
    ∧ (∀ i, i < 3 → (∀ j, j < i → outcome j ≠ none) → outcome i = none →
        (SendMessage outcome ctxDone).err = none
        ∧ (SendMessage outcome ctxDone).attempts = i + 1
        ∧ (SendMessage outcome ctxDone).waits
            = (List.range i).map (fun k => (2 : Int) ^ (k + 1) * Second))
    ∧ ((∀ j, j < 3 → outcome j ≠ none) →
        (SendMessage outcome ctxDone).err = some (SendError.exhausted 3 (outcome 2))
        ∧ (SendMessage outcome ctxDone).attempts = 3
        ∧ (SendMessage outcome ctxDone).waits = [2 * Second, 4 * Second])
    ∧ (outcome 0 ≠ none → outcome 1 ≠ none → outcome 2 = none →
        (SendMessage outcome ctxDone).err = none
        ∧ (SendMessage outcome ctxDone).waits.sum = 6 * Second) := by
  have hrun : SendMessage outcome ctxDone
      = match outcome 0 with
        | none => ⟨none, 1, []⟩
        | some _ =>
          match outcome 1 with
          | none => ⟨none, 2, [2 * Second]⟩
          | some _ =>
            match outcome 2 with
            | none => ⟨none, 3, [2 * Second, 4 * Second]⟩
            | some e => ⟨some (SendError.exhausted 3 (some e)), 3, [2 * Second, 4 * Second]⟩ := by
    unfold SendMessage sendMessageWithRetry
    simp only [retryLoop, hctx, Nat.lt_irrefl, false_and, if_false, and_false,
      Bool.false_eq_true, Nat.zero_add, List.nil_append, Nat.lt_add_one, Nat.reduceAdd,
      Nat.ofNat_pos, if_true, backoff_one, backoff_two]
    cases outcome 0 with
    | none => rfl
    | some e0 =>
      cases outcome 1 with
      | none => rfl
      | some e1 =>
        cases outcome 2 with
        | none => rfl
        | some e2 => rfl
  rw [hrun]
  refine ⟨?_, ?_, ?_, ?_⟩
  · cases outcome 0 <;> cases outcome 1 <;> cases outcome 2 <;> simp
  · intro i hi hfail hok
    interval_cases i
    · rw [hok]; simp
    · have h0 := hfail 0 (by omega)
      cases h0' : outcome 0 with
      | none => exact absurd h0' h0
      | some e0 => rw [hok]; simp [List.range_succ]
    · have h0 := hfail 0 (by omega)
      have h1 := hfail 1 (by omega)
      cases h0' : outcome 0 with
      | none => exact absurd h0' h0
      | some e0 =>
        cases h1' : outcome 1 with
        | none => exact absurd h1' h1
        | some e1 => rw [hok]; simp [List.range_succ]
  · intro hfail
    have h0 := hfail 0 (by omega)
    have h1 := hfail 1 (by omega)
    have h2 := hfail 2 (by omega)
    cases h0' : outcome 0 with
    | none => exact absurd h0' h0
    | some e0 =>
      cases h1' : outcome 1 with
      | none => exact absurd h1' h1
      | some e1 =>
        cases h2' : outcome 2 with
        | none => exact absurd h2' h2
        | some e2 => simp
  · intro h0 h1 h2
    cases h0' : outcome 0 with
    | none => exact absurd h0' h0
    | some e0 =>
      cases h1' : outcome 1 with
      | none => exact absurd h1' h1
      | some e1 =>
        rw [h2]
        refine ⟨rfl, ?_⟩
        simp only [List.sum_cons, List.sum_nil]
        ring

/-- C8 at concrete outcomes: the first two attempts fail, the third succeeds. -/
theorem C8_send_message_retry_witness :
    (SendMessage (fun k => if k < 2 then some "API error" else none) (fun _ => false)).err = none
    ∧ (SendMessage (fun k => if k < 2 then some "API error" else none)
        (fun _ => false)).waits.sum = 6 * Second :=
  (C8_send_message_retry (fun k => if k < 2 then some "API error" else none) (fun _ => false)
    (fun _ => rfl)).2.2.2 (by decide) (by decide) (by decide)

/-! ## C9: remaining time -/

/-- C9.  For every state and chat: when a Timer is registered for `c` with a duration `d` that
is not negative (and fits `int64`), started at `t0` no later than the clock reading `t` of the
state, `GetActiveTimerInfo c` returns found = true and remaining = `max 0 (d - (t - t0))`, and
the value does not grow when the clock advances; the remaining value is never negative, in
any state; and for a chat with no registered Timer, in any state and so in the fresh manager,
the result is `(0, false)`. -/
theorem C9_remaining_time (tm : TimerManager) (c : Int) (dt : Nat) :
    (∀ timer, mapGet tm.timers c = some timer →
        0 ≤ timer.Duration → timer.Duration ≤ maxInt64 → timer.StartTime ≤ tm.now →
          GetActiveTimerInfo tm c
              = (max 0 (timer.Duration - (tm.now - timer.StartTime)), true)
          ∧ (GetActiveTimerInfo (advance tm dt) c).1 ≤ (GetActiveTimerInfo tm c).1)
    ∧ 0 ≤ (GetActiveTimerInfo tm c).1
    ∧ (mapGet tm.timers c = none → GetActiveTimerInfo tm c = (0, false))
    ∧ (HasActiveTimer tm c = false → GetActiveTimerInfo tm c = (0, false))
    ∧ GetActiveTimerInfo NewTimerManager c = (0, false) := by
  have hnone : mapGet tm.timers c = none → GetActiveTimerInfo tm c = (0, false) := by
    intro h
    unfold GetActiveTimerInfo
    rw [h]
  refine ⟨?_, ?_, hnone, ?_, rfl⟩
  · intro timer hreg hd0 hd1 ht
    have hnow : (advance tm dt).now = tm.now + dt := rfl
    have htim : (advance tm dt).timers = tm.timers := rfl
    unfold maxInt64 at hd1
    constructor
    · unfold GetActiveTimerInfo
      rw [hreg]
      simp only [Prod.mk.injEq, and_true]
      unfold timeSince wrap64 maxInt64 minInt64
      rw [max_def]
      split_ifs <;> omega
    · unfold GetActiveTimerInfo
      rw [htim, hreg, hnow]
      simp only
      unfold timeSince wrap64 maxInt64 minInt64
      split_ifs <;> omega
  · unfold GetActiveTimerInfo
    cases mapGet tm.timers c with
    | none => exact le_refl _
    | some timer =>
      simp only
      split_ifs <;> omega
  · intro h
    apply hnone
    unfold HasActiveTimer at h
    cases hget : mapGet tm.timers c with
    | none => rfl
    | some timer => rw [hget] at h; exact absurd h (by simp)

/-- C9 at concrete states: a 30-second Timer for chat 7 read 10 seconds after its start, and
chat 7 in the fresh manager. -/
theorem C9_remaining_time_witness :
    GetActiveTimerInfo (run NewTimerManager
        [Event.setTimer 7 30000000000 "30 секунд", Event.tick 10000000000]) 7
      = (20000000000, true)
    ∧ GetActiveTimerInfo NewTimerManager 7 = (0, false) :=
  ⟨((C9_remaining_time
      (run NewTimerManager [Event.setTimer 7 30000000000 "30 секунд", Event.tick 10000000000])
      7 0).1 ⟨7, 30000000000, 0, 0⟩ (by decide) (by decide) (by decide) (by decide)).1,
   (C9_remaining_time NewTimerManager 7 0).2.2.1 (by decide)⟩

/-! ## C11: the max-duration branch of the dispatcher -/

theorem parse_ok_range (input : String) (herr : (parseTimerDuration input).err = none) :
    0 ≤ (parseTimerDuration input).duration
      ∧ (parseTimerDuration input).duration ≤ 24 * Hour := by
  cases hfind : FindStringSubmatch (ToLower (TrimSpace input.data)) with
  | none =>
    rw [parse_no_match input hfind] at herr
    exact absurd herr (by simp)
  | some p =>
    obtain ⟨ds, u⟩ := p
    obtain ⟨hs, hne, hdig, hu⟩ := (FindStringSubmatch_eq_some_iff _ _ _).mp hfind
    rcases hu with hu | hu
    · subst hu
      by_cases hle : decimalValue ds ≤ 86400
      · rw [(parse_seconds input ds hs hne hdig).1 hle]
        simp only [Second, Hour]
        omega
      · exact absurd herr ((parse_seconds input ds hs hne hdig).2 (by omega)).1
    · subst hu
      by_cases hle : decimalValue ds ≤ 1440
      · rw [(parse_minutes input ds hs hne hdig).1 hle]
        simp only [Minute, Hour]
        omega
      · exact absurd herr ((parse_minutes input ds hs hne hdig).2 (by omega)).1

theorem confirmationMessage_ne_maxDurationMessage (durationText : String) :
    confirmationMessage durationText ≠ maxDurationMessage := by
  intro h
  have hd := congrArg String.data h
  simp [confirmationMessage, maxDurationMessage, String.data_append] at hd

/-- C11.  Whenever `parseTimerDuration` returns a nil error the duration lies between 0 and 24
hours inclusive, the product in nanoseconds staying inside `int64`; both ends are reached
(`0s`, and `86400s` or `1440m`).  Hence in `handleTimerCommand` the test
`duration > 24*time.Hour` is never true: for every state, chat and argument the max-duration
text is not among the texts sent, and every non-empty argument that parses leads to
`SetTimer` with the parsed duration and label followed by the confirmation text. -/
theorem C11_max_duration_branch_unreachable (tm : TimerManager) (chatID : Int)
    (args : String) :
    ((parseTimerDuration args).err = none →
        0 ≤ (parseTimerDuration args).duration
        ∧ (parseTimerDuration args).duration ≤ 24 * Hour
        ∧ (parseTimerDuration args).duration ≤ maxInt64)
    ∧ ¬ ((parseTimerDuration args).err = none ∧ (parseTimerDuration args).duration > 24 * Hour)
    ∧ maxDurationMessage ∉ (handleTimerCommand tm chatID args).2
    ∧ (args ≠ "" → (parseTimerDuration args).err = none →
        handleTimerCommand tm chatID args
          = (SetTimer tm chatID (parseTimerDuration args).duration (parseTimerDuration args).text,
             [confirmationMessage (parseTimerDuration args).text]))
    ∧ (parseTimerDuration "0s").duration = 0
    ∧ (parseTimerDuration "86400s").duration = 24 * Hour
    ∧ (parseTimerDuration "1440m").duration = 24 * Hour := by
  refine ⟨?_, ?_, ?_, ?_, by decide, by decide, by decide⟩
  · intro herr
    obtain ⟨h0, h24⟩ := parse_ok_range args herr
    refine ⟨h0, h24, ?_⟩
    simp only [Hour] at h24
    simp only [maxInt64]
    omega
  · rintro ⟨herr, hgt⟩
    have h24 := (parse_ok_range args herr).2
    omega
  · unfold handleTimerCommand
    split_ifs with hargs herr hgt
    · simp only [List.mem_singleton]; decide
    · simp only [List.mem_singleton]; decide
    · have herr' : (parseTimerDuration args).err = none := not_not.mp herr
      have h24 := (parse_ok_range args herr').2
      omega
    · simp only [List.mem_singleton]
      exact fun h => confirmationMessage_ne_maxDurationMessage _ h.symm
  · intro hargs herr
    have h24 := (parse_ok_range args herr).2
    have hnot : ¬ ((parseTimerDuration args).duration > 24 * Hour) := by omega
    unfold handleTimerCommand
    rw [if_neg hargs, if_neg (not_not.mpr herr), if_neg hnot]

/-- C11 at a concrete argument: `/timer 1440m`, the largest accepted duration, is not stopped by
the 24-hour test and reaches `SetTimer` and the confirmation. -/
theorem C11_max_duration_branch_unreachable_witness :
    handleTimerCommand NewTimerManager 7 "1440m"
      = (SetTimer NewTimerManager 7 (parseTimerDuration "1440m").duration
           (parseTimerDuration "1440m").text,
         [confirmationMessage (parseTimerDuration "1440m").text]) :=
  (C11_max_duration_branch_unreachable NewTimerManager 7 "1440m").2.2.2.1 (by decide) (by decide)

end TgTimer
